import Mathlib

/-!
Shallow embedding of the `autonotes` repository (files `app.py`,
`ocr_formatter/formatter.py`, `ocr_formatter/ocr.py`).

Strings are embedded as `List Char`.  Python string primitives used by the
source (`str.split`, `str.rstrip`, `str.strip`, `str.lstrip(charset)`,
`str.startswith`, the `in` substring test) are reproduced below with Python's
semantics (whitespace = ASCII whitespace, `lstrip(charset)` strips a *set* of
characters, `split` keeps empty fragments).
-/

namespace OCRFormatter

/-- ASCII whitespace, as stripped by Python's argument-less `str.strip` /
`str.rstrip` (the source only ever feeds ASCII text to these). -/
def isPySpace (c : Char) : Bool :=
  c = ' ' || c = '\t' || c = '\n' || c = '\r' || c = '\x0b' || c = '\x0c'

/-- Python `str.rstrip()`: drop trailing whitespace. -/
def pyRstrip : List Char → List Char
  | [] => []
  | c :: t =>
    match pyRstrip t with
    | [] => if isPySpace c then [] else [c]
    | r => c :: r

/-- Python `str.strip()` applied as in the source: drop trailing then leading
whitespace. -/
def pyStrip (l : List Char) : List Char :=
  (pyRstrip l).dropWhile isPySpace

/-- Helper for the splitters: prepend a character to the first fragment. -/
def consHead (a : Char) : List (List Char) → List (List Char)
  | [] => [[a]]
  | h :: t => (a :: h) :: t

/-- Python `text.split(sep)` for a one-character separator: fragments between
separators, empty fragments kept (`"\n\n\n".split("\n") = ["","","",""]`). -/
def splitOnChar (sep : Char) : List Char → List (List Char)
  | [] => [[]]
  | a :: t =>
    if a = sep then [] :: splitOnChar sep t
    else consHead a (splitOnChar sep t)

/-- Python `text.split(d+d)` for a two-character separator made of the same
character twice (the source splits on `"**"`): leftmost, non-overlapping. -/
def splitOnPair (d : Char) : List Char → List (List Char)
  | [] => [[]]
  | [a] => [[a]]
  | a :: b :: t =>
    if a = d ∧ b = d then [] :: splitOnPair d t
    else consHead a (splitOnPair d (b :: t))

/-- Python `(d+d) in text`: does the doubled character occur as a substring? -/
def containsPair (d : Char) : List Char → Bool
  | a :: b :: t => (a = d && b = d) || containsPair d (b :: t)
  | _ => false

/-- The text with every (leftmost, non-overlapping) occurrence of the doubled
delimiter removed — the plain text under the spec's "with the bold markers
removed". -/
def removePairs (d : Char) : List Char → List Char
  | [] => []
  | [a] => [a]
  | a :: b :: t =>
    if a = d ∧ b = d then removePairs d t
    else a :: removePairs d (b :: t)

/-- An inline run: a span of text with a boolean bold attribute
(`run = p.add_run(part); run.bold = True` in `save_as_docx`). -/
structure Run where
  text : List Char
  bold : Bool
deriving DecidableEq

/-- `for i, part in enumerate(parts): run = p.add_run(part); if i % 2 == 1:
run.bold = True` — fragments alternate plain/bold starting with plain. -/
def altRuns (parts : List (List Char)) : List Run :=
  parts.enum.map fun p => ⟨p.2, p.1 % 2 == 1⟩

/-- The run sequence `save_as_docx` produces for one bullet/paragraph content
string: if `'**' in text` split on `'**'` and alternate bold, else a single
plain run. -/
def runsOf (content : List Char) : List Run :=
  if containsPair '*' content then altRuns (splitOnPair '*' content)
  else [⟨content, false⟩]

/-- Modelled from the spec: "split the content on the literal two-character
bold delimiter `**`. Resulting fragments alternate plain/bold starting with
plain" — applied unconditionally, with no branch on whether the delimiter
occurs. -/
def splitThenAlternate (content : List Char) : List Run :=
  altRuns (splitOnPair '*' content)

/-- Concatenation of the texts of a run sequence (bold attribute ignored). -/
def joinRuns (rs : List Run) : List Char :=
  (rs.map Run.text).flatten

/-- The spec's "clamped to the range 1–9". -/
def clamp19 (n : Nat) : Nat := max 1 (min n 9)

/-- A typed block of the reconstructed document. -/
inductive Block where
  | blank
  | heading (level : Nat) (title : List Char)
  | bulletItem (content : List Char)
  | paragraph (content : List Char)
deriving DecidableEq

/-- `line.strip().startswith(('- ', '* '))`. -/
def isBulletStart (l : List Char) : Bool :=
  List.isPrefixOf ['-', ' '] l || List.isPrefixOf ['*', ' '] l

/-- The character set of Python `line.lstrip('- *')` in `save_as_docx`. -/
def bulletMarkChar (c : Char) : Bool :=
  c = '-' || c = ' ' || c = '*'

/-- Line classification of `save_as_docx`, one iteration of its `for line in
paragraphs` loop: rstrip; empty → blank; leading `#` → heading with
`level = len(line) - len(line.lstrip('#'))` capped by `min(level, 9)` and
title `line.lstrip('#').strip()`; stripped line starting `"- "`/`"* "` →
bullet with content `line.lstrip('- *').strip()`; otherwise paragraph. -/
def classifyLine (raw : List Char) : Block :=
  let line := pyRstrip raw
  if line = [] then .blank
  else if line.head? = some '#' then
    .heading (min (line.length - (line.dropWhile (· = '#')).length) 9)
      (pyStrip (line.dropWhile (· = '#')))
  else if isBulletStart (pyStrip line) then
    .bulletItem (pyStrip (line.dropWhile bulletMarkChar))
  else .paragraph line

/-- `save_as_docx`: `text.split('\n')`, each line classified in order. -/
def docxBlocks (text : List Char) : List Block :=
  (splitOnChar '\n' text).map classifyLine

/-- One structural element emitted into the rich document. -/
inductive DocxElem where
  | headingElem (level : Nat) (title : List Char)
  | bulletElem (runs : List Run)
  | paraElem (runs : List Run)
  | emptyPara
deriving DecidableEq

/-- Rendering of one block by `save_as_docx`: a blank line emits one empty
paragraph (`doc.add_paragraph()`), a heading emits `doc.add_heading`, a bullet
emits a `List Bullet` paragraph with its runs, a paragraph its runs. -/
def renderBlock : Block → DocxElem
  | .blank => .emptyPara
  | .heading l t => .headingElem l t
  | .bulletItem c => .bulletElem (runsOf c)
  | .paragraph c => .paraElem (runsOf c)

/-- The full sequence of elements `save_as_docx` adds to the document. -/
def docxRender (bs : List Block) : List DocxElem :=
  bs.map renderBlock

/-! ### `format_with_llm` post-processing (reasoning-trace tag removal)

The source applies, to the decoded model output, either
`re.sub(r"<think>.*?</think>", "", s, flags=re.I|re.S)` when
`re.search` finds such a span, or otherwise `re.sub(r"</?think>", "", s,
flags=re.I)`, and finally `s.strip()`.  Both regexes are literal-text
matches up to case (`re.I`); `.*?` with `re.S` makes each match end at the
first closing tag after its opening tag, matches taken leftmost and
non-overlapping, exactly as modelled below. -/

/-- Case-insensitive prefix match of a pattern against a text. -/
def matchCI : List Char → List Char → Bool
  | [], _ => true
  | _ :: _, [] => false
  | p :: ps, c :: cs => (p.toLower == c.toLower) && matchCI ps cs

def openTag : List Char := "<think>".toList

def closeTag : List Char := "</think>".toList

/-- Does the pattern occur (case-insensitively) anywhere in the text? -/
def containsCI (pat : List Char) : List Char → Bool
  | [] => matchCI pat []
  | c :: rest => matchCI pat (c :: rest) || containsCI pat rest

/-- Drop everything up to and including the first (case-insensitive)
`</think>`; `none` when there is no closing tag.  The returned suffix is no
longer than the input (needed for termination of `subPaired`). -/
def dropThroughClose : (l : List Char) → Option { r : List Char // r.length ≤ l.length }
  | [] => none
  | c :: cs =>
    if matchCI closeTag (c :: cs) then
      some ⟨List.drop 8 (c :: cs), by simp only [List.length_drop]; omega⟩
    else
      match dropThroughClose cs with
      | none => none
      | some ⟨r, hr⟩ => some ⟨r, by simp only [List.length_cons]; omega⟩

/-- Scanner of `re.sub(r"<think>.*?</think>", "", s, flags=re.I|re.S)`: each
match starts at an occurrence of `<think>` and ends at the first `</think>`
after it; matches are removed leftmost-first and non-overlapping.  The fuel
makes the recursion structural; every step shortens the scanned list, so any
fuel of at least the list's length gives the untruncated result. -/
def subPairedGo : Nat → List Char → List Char
  | 0, s => s
  | _ + 1, [] => []
  | fuel + 1, c :: rest =>
    if matchCI openTag (c :: rest) then
      match dropThroughClose (List.drop 7 (c :: rest)) with
      | some after => subPairedGo fuel after.1
      | none => c :: subPairedGo fuel rest
    else c :: subPairedGo fuel rest

/-- `re.sub(r"<think>.*?</think>", "", s, flags=re.I|re.S)`. -/
def subPaired (s : List Char) : List Char := subPairedGo s.length s

/-- `re.search(r"<think>.*?</think>", s, flags=re.I|re.S)` succeeds: some
position starts a case-insensitive `<think>` with a `</think>` after it. -/
def searchPaired : List Char → Bool
  | [] => false
  | c :: rest =>
    (matchCI openTag (c :: rest) && (dropThroughClose (List.drop 7 (c :: rest))).isSome)
      || searchPaired rest

/-- Scanner of `re.sub(r"</?think>", "", s, flags=re.I)`: every lone
`<think>` or `</think>` occurrence is removed, leftmost-first and
non-overlapping; fuel as in `subPairedGo`. -/
def subLoneGo : Nat → List Char → List Char
  | 0, s => s
  | _ + 1, [] => []
  | fuel + 1, c :: rest =>
    if matchCI closeTag (c :: rest) then subLoneGo fuel (List.drop 8 (c :: rest))
    else if matchCI openTag (c :: rest) then subLoneGo fuel (List.drop 7 (c :: rest))
    else c :: subLoneGo fuel rest

/-- `re.sub(r"</?think>", "", s, flags=re.I)`. -/
def subLone (s : List Char) : List Char := subLoneGo s.length s

/-- The tag-removal tail of `format_with_llm`: if a paired span exists remove
all paired spans, else remove all lone tags; then `str.strip()`. -/
def stripThink (s : List Char) : List Char :=
  pyStrip (if searchPaired s then subPaired s else subLone s)

/-- Modelled from the spec: "a paired-tag span and any unpaired leftover tags
are stripped; whitespace is re-trimmed afterward" — remove paired spans, then
remove leftover lone tags, then trim. -/
def specStripThink (s : List Char) : List Char :=
  pyStrip (subLone (subPaired s))

/-! ### `save_as_docx` terminal save (`doc.save(output_path)`)

The rendering above is pure; the only I/O is the final `doc.save(output_path)`
wrapped in `try/except` that logs and re-raises.  The library write is an
opaque fallible operation modelled by its outcome: success publishes the
complete rendered document at the output path; failure raises, possibly
leaving partially-written bytes.  The `except` arm performs no filesystem
action (no temporary file, no atomic rename, no delete-on-failure). -/

/-- Outcome of the underlying library write. -/
inductive SaveOutcome where
  | ok
  | ioError (partialLeft : Bool)
deriving DecidableEq

/-- What a caller finds at the output path afterwards. -/
inductive FileState where
  | absent
  | partialWrite
  | complete (elems : List DocxElem)
deriving DecidableEq

/-- `save_as_docx` end-to-end: result (normal return or raised
`DocumentWriteError`) together with the file state left at `output_path`. -/
def saveAsDocx (text : List Char) (o : SaveOutcome) : Except Unit Unit × FileState :=
  match o with
  | .ok => (.ok (), .complete (docxRender (docxBlocks text)))
  | .ioError left => (.error (), if left then .partialWrite else .absent)

/-! ### `OCRProcessor.process_image`, stage 8 (polarity correction)

Stages 1–7 are opaque OpenCV transforms whose composed output is some
nonempty single-channel 8-bit image (every pixel in `0..255`); the polarity
stage (`if np.mean(sharpened) < 127: sharpened = cv2.bitwise_not(sharpened)`)
is embedded exactly, over that arbitrary stage-7 output, with the mean taken
exactly (as a rational). -/

/-- `cv2.bitwise_not` on an 8-bit pixel. -/
def invertPix (p : Nat) : Nat := 255 - p

/-- `np.mean` of an image, exact. -/
def pixMean (img : List Nat) : ℚ := (img.sum : ℚ) / img.length

/-- Stage 8 of `process_image`: invert when the mean is below the midpoint. -/
def polarityCorrect (img : List Nat) : List Nat :=
  if pixMean img < 127 then img.map invertPix else img

end OCRFormatter

namespace AppServer

open OCRFormatter

/-- A filesystem path as a list of components; `tempfile.mkdtemp()` results
have at least two components (a directory under the system temp root). -/
abbrev FPath := List (List Char)

/-- The request fields of `POST /process` that steer its control flow. -/
structure Req where
  filename : List Char
  markdownContent : Option (List Char)
  preview : Option (List Char)
  outputFormat : List Char
deriving DecidableEq

/-- Outcomes of the opaque fallible sub-steps of one request (OCR engine,
cleanup engine, document save, post-save file checks). -/
structure Env where
  ocrOk : Bool
  ocrText : List Char
  llmOk : Bool
  llmText : List Char
  saveOk : Bool
  outExists : Bool
  outNonempty : Bool
deriving DecidableEq

/-- The response `process` returns. -/
inductive Resp where
  | fileAttachment (path : FPath)
  | jsonPreview (text : List Char)
  | err500
deriving DecidableEq

/-- Observable outcome of one request: the response, how many times the
request's temporary directory is released (`shutil.rmtree(tmp_dir)` calls,
counting the scheduled background cleanup), and the files written. -/
structure Outcome where
  resp : Resp
  rmtreeCalls : Nat
  writes : List FPath
deriving DecidableEq

/-- `pathlib.Path(name).stem`: the final component without its last suffix
(a lone leading dot is not a suffix). -/
def stemOf (name : List Char) : List Char :=
  match name.reverse.dropWhile (· ≠ '.') with
  | [] => name
  | _ :: rest => if rest = [] then name else rest.reverse

/-- The fixed debug path `cv2.imwrite("preprocessed.png", sharpened)` writes
to: a single relative component, independent of any request state. -/
def debugPath : FPath := ["preprocessed.png".toList]

/-- The filesystem writes of `OCRProcessor.process_image` as a function of its
`save_debug` parameter: the debug image goes to the fixed `debugPath`. -/
def processImageWrites (saveDebug : Bool) : List FPath :=
  if saveDebug then [debugPath] else []

/-- Default of `process_image`'s `save_debug` parameter (`ocr.py`, line 22);
the orchestrator's call `ocr.process_image(str(in_path))` leaves it unset. -/
def saveDebugDefault : Bool := true

/-- `output_format == "md" or output_format == "markdown"`. -/
def isMdFormat (fmt : List Char) : Bool :=
  fmt = "md".toList || fmt = "markdown".toList

/-- `out_path = Path(tmp_dir) / f"{stem}.{md|docx}"` with
`stem = Path(file.filename).stem if file.filename else "notes"`. -/
def outPathOf (tmpDir : FPath) (req : Req) : FPath :=
  tmpDir ++ [(if req.filename ≠ [] then stemOf req.filename else "notes".toList)
    ++ (if isMdFormat req.outputFormat then ".md".toList else ".docx".toList)]

/-- The tail of `process` after `formatted` is available: preview early
return (returns JSON, performs no cleanup), else save the output file, check
it, and answer with a `FileResponse` plus a background `rmtree`; any raise is
caught by the inner `except`, which calls `rmtree` once and re-raises into
the outer handler's 500 response. -/
def afterFormat (tmpDir : FPath) (req : Req) (env : Env)
    (formatted : List Char) (ws : List FPath) : Outcome :=
  if req.preview = some ("true".toList) ∧ isMdFormat req.outputFormat then
    ⟨.jsonPreview formatted, 0, ws⟩
  else if env.saveOk then
    if env.outExists then
      if env.outNonempty then
        ⟨.fileAttachment (outPathOf tmpDir req), 1, ws ++ [outPathOf tmpDir req]⟩
      else ⟨.err500, 1, ws ++ [outPathOf tmpDir req]⟩
    else ⟨.err500, 1, ws ++ [outPathOf tmpDir req]⟩
  else ⟨.err500, 1, ws⟩

/-- The `/process` handler from `tmp_dir = tempfile.mkdtemp()` on: Python's
`if markdown_content:` (truthiness: set and non-empty) selects the direct
path; otherwise the upload is written to `in_path` inside the temporary
directory, OCR runs (writing its debug artifact on success), then the cleanup
engine; failures take the inner `except` path (one `rmtree`, then a 500
response from the outer handler). -/
def process (tmpDir : FPath) (req : Req) (env : Env) : Outcome :=
  if req.markdownContent.getD [] ≠ [] then
    afterFormat tmpDir req env (req.markdownContent.getD []) []
  else if env.ocrOk then
    if env.llmOk then
      afterFormat tmpDir req env env.llmText
        ((tmpDir ++ [req.filename]) :: processImageWrites saveDebugDefault)
    else ⟨.err500, 1, (tmpDir ++ [req.filename]) :: processImageWrites saveDebugDefault⟩
  else ⟨.err500, 1, [tmpDir ++ [req.filename]]⟩

end AppServer

/-! ## Theorems -/

namespace OCRFormatter

theorem consHead_flatten (a : Char) : ∀ L : List (List Char), (consHead a L).flatten = a :: L.flatten
  | [] => by simp [consHead]
  | h :: t => by simp [consHead]

theorem splitOnPair_not_contains (d : Char) :
    ∀ l, containsPair d l = false → splitOnPair d l = [l]
  | [], _ => rfl
  | [a], _ => rfl
  | a :: b :: t, h => by
    have hd : ¬(a = d ∧ b = d) := by
      rintro ⟨rfl, rfl⟩
      simp [containsPair] at h
    have h2 : containsPair d (b :: t) = false := by
      simp only [containsPair, Bool.or_eq_false_iff] at h
      exact h.2
    simp only [splitOnPair]
    rw [if_neg hd, splitOnPair_not_contains d (b :: t) h2]
    rfl

theorem splitOnPair_flatten (d : Char) : ∀ l, (splitOnPair d l).flatten = removePairs d l
  | [] => by simp [splitOnPair, removePairs]
  | [a] => by simp [splitOnPair, removePairs]
  | a :: b :: t => by
    by_cases hd : a = d ∧ b = d
    · simp only [splitOnPair, removePairs, if_pos hd, List.flatten_cons]
      simpa using splitOnPair_flatten d t
    · simp only [splitOnPair, removePairs, if_neg hd]
      rw [consHead_flatten, splitOnPair_flatten d (b :: t)]

theorem altRuns_map_text (parts : List (List Char)) :
    (altRuns parts).map Run.text = parts := by
  simp only [altRuns, List.map_map]
  exact List.enum_map_snd parts

theorem runsOf_eq_alt (c : List Char) : runsOf c = altRuns (splitOnPair '*' c) := by
  unfold runsOf
  by_cases h : containsPair '*' c = true
  · rw [if_pos h]
  · have h' : containsPair '*' c = false := by simpa using h
    rw [if_neg h, splitOnPair_not_contains _ _ h']
    rfl

theorem dropWhile_length_le (p : Char → Bool) :
    ∀ l : List Char, (l.dropWhile p).length ≤ l.length
  | [] => le_refl _
  | a :: t => by
    rw [List.dropWhile_cons]
    split
    · exact le_trans (dropWhile_length_le p t) (by simp)
    · exact le_refl _

theorem pyRstrip_cons_of_not_space (c : Char) (t : List Char)
    (h : isPySpace c = false) : pyRstrip (c :: t) = c :: pyRstrip t := by
  cases ht : pyRstrip t with
  | nil => simp [pyRstrip, ht, h]
  | cons r rs => simp [pyRstrip, ht]

/-- C1: the claim expects the bullet line `"- **Important** point"` to keep
its bold delimiter (content `"**Important** point"`, runs
`[("", plain), ("Important", bold), (" point", plain)]`), as the spec's
bullet rule and the docstring's "preserving basic markdown formatting"
require; the code's `line.lstrip('- *')` strips the character *set*
`'-', ' ', '*'`, so it also eats the opening bold delimiter and produces
content `"Important** point"` with runs
`[("Important", plain), (" point", bold)]` — the bold attribute lands on the
wrong spans.  This theorem evaluates the embedded code at the failing
input. -/
theorem bullet_charset_lstrip_eval :
    classifyLine ("- **Important** point".toList)
      = Block.bulletItem ("Important** point".toList) ∧
    runsOf ("Important** point".toList)
      = [⟨"Important".toList, false⟩, ⟨" point".toList, true⟩] := by
  constructor <;> decide

/-- C2 (counterexample): the input consisting of three newline characters
does not produce three `BlankLine` blocks rendered as three empty
paragraphs — `split('\n')` yields four empty lines. -/
theorem three_newlines_not_three_blanks :
    ¬(docxBlocks ("\n\n\n".toList) = [Block.blank, Block.blank, Block.blank] ∧
      docxRender (docxBlocks ("\n\n\n".toList))
        = [DocxElem.emptyPara, DocxElem.emptyPara, DocxElem.emptyPara]) := by
  decide

/-- C2 (amended): `"\n\n\n"` produces exactly four consecutive `BlankLine`
blocks, and rendering to the rich-document target emits exactly four empty
paragraphs — no text loss and no collapsing. -/
theorem three_newlines_four_blanks :
    docxBlocks ("\n\n\n".toList)
      = [Block.blank, Block.blank, Block.blank, Block.blank] ∧
    docxRender (docxBlocks ("\n\n\n".toList))
      = [DocxElem.emptyPara, DocxElem.emptyPara, DocxElem.emptyPara,
          DocxElem.emptyPara] := by
  constructor <;> decide

/-- C6: every line starting with `#` classifies as a heading whose level is
the count of leading `#` clamped to 1–9 and whose title is the remainder with
leading `#` and surrounding whitespace stripped. -/
theorem heading_clamped (raw : List Char) (h : raw.head? = some '#') :
    classifyLine raw
      = Block.heading
          (clamp19 ((pyRstrip raw).length - ((pyRstrip raw).dropWhile (· = '#')).length))
          (pyStrip ((pyRstrip raw).dropWhile (· = '#'))) ∧
    1 ≤ clamp19 ((pyRstrip raw).length - ((pyRstrip raw).dropWhile (· = '#')).length) ∧
    clamp19 ((pyRstrip raw).length - ((pyRstrip raw).dropWhile (· = '#')).length) ≤ 9 := by
  obtain ⟨t, rfl⟩ : ∃ t, raw = '#' :: t := by
    cases raw with
    | nil => simp at h
    | cons c t =>
      simp only [List.head?_cons, Option.some.injEq] at h
      exact ⟨t, by rw [h]⟩
  have hr : pyRstrip ('#' :: t) = '#' :: pyRstrip t :=
    pyRstrip_cons_of_not_space _ _ rfl
  have hdw : ('#' :: pyRstrip t).dropWhile (· = '#')
      = (pyRstrip t).dropWhile (· = '#') := by
    simp [List.dropWhile_cons]
  have hL : 1 ≤ ('#' :: pyRstrip t).length
      - (('#' :: pyRstrip t).dropWhile (· = '#')).length := by
    rw [hdw]
    have := dropWhile_length_le (fun c => decide (c = '#')) (pyRstrip t)
    simp only [List.length_cons]
    omega
  refine ⟨?_, ?_, ?_⟩
  · unfold classifyLine
    rw [hr]
    rw [if_neg (by simp),
      if_pos (show ('#' :: pyRstrip t).head? = some '#' from rfl)]
    have : min (('#' :: pyRstrip t).length
        - (('#' :: pyRstrip t).dropWhile (· = '#')).length) 9
        = clamp19 (('#' :: pyRstrip t).length
          - (('#' :: pyRstrip t).dropWhile (· = '#')).length) := by
      unfold clamp19
      omega
    rw [this]
  · rw [hr]; unfold clamp19; omega
  · rw [hr]; unfold clamp19; omega

/-- C6 (witness): `"### Title"` yields a level-3 heading titled `"Title"`,
and a line of ten `#` characters yields a level-9 heading (clamped). -/
theorem heading_clamped_witness :
    (("### Title".toList).head? = some '#' ∧
      ("########## Too Deep".toList).head? = some '#') ∧
    classifyLine ("### Title".toList) = Block.heading 3 ("Title".toList) ∧
    classifyLine ("########## Too Deep".toList)
      = Block.heading 9 ("Too Deep".toList) := by
  refine ⟨⟨rfl, rfl⟩, ?_, ?_⟩
  · exact (heading_clamped ("### Title".toList) rfl).1.trans (by decide)
  · exact (heading_clamped ("########## Too Deep".toList) rfl).1.trans (by decide)

/-- C7: the run sequence the code produces for any paragraph/bullet content
equals the spec's rule — split on the literal `**` delimiter and alternate
plain/bold starting with plain — applied mechanically for every content
string, including odd delimiter counts and empty fragments (the code's
`'**' in text` branch is immaterial: splitting delimiter-free text yields the
single plain run the other branch produces). -/
theorem runs_are_split_alternate (content : List Char) :
    runsOf content = splitThenAlternate content := by
  rw [runsOf_eq_alt]
  rfl

/-- C8: for every paragraph or bullet block of a reconstructed document,
concatenating its runs' texts in order (ignoring the bold attribute)
reproduces the block's plain content with all `**` delimiters removed. -/
theorem block_runs_concat (text : List Char) (b : Block) (c : List Char)
    (_hb : b ∈ docxBlocks text)
    (_hbc : b = Block.paragraph c ∨ b = Block.bulletItem c) :
    joinRuns (runsOf c) = removePairs '*' c := by
  unfold joinRuns
  rw [runsOf_eq_alt, altRuns_map_text, splitOnPair_flatten]

/-- C8 (witness): the paragraph block of the one-line document `"x**y"`. -/
theorem block_runs_concat_witness :
    (Block.paragraph ("x**y".toList) ∈ docxBlocks ("x**y".toList)) ∧
    joinRuns (runsOf ("x**y".toList)) = removePairs '*' ("x**y".toList) :=
  ⟨by decide,
    block_runs_concat ("x**y".toList) (Block.paragraph ("x**y".toList))
      ("x**y".toList) (by decide) (Or.inl rfl)⟩

end OCRFormatter

namespace OCRFormatter

theorem subPairedGo_of_not_search :
    ∀ (fuel : Nat) (s : List Char), searchPaired s = false → subPairedGo fuel s = s
  | 0, _, _ => rfl
  | _ + 1, [], _ => rfl
  | fuel + 1, c :: rest, h => by
    simp only [searchPaired, Bool.or_eq_false_iff] at h
    obtain ⟨hAB, hs⟩ := h
    have ih := subPairedGo_of_not_search fuel rest hs
    by_cases hA : matchCI openTag (c :: rest) = true
    · have hB : (dropThroughClose (List.drop 7 (c :: rest))).isSome = false := by
        rwa [hA, Bool.true_and] at hAB
      have hnone : dropThroughClose (List.drop 7 (c :: rest)) = none := by
        cases hd : dropThroughClose (List.drop 7 (c :: rest)) with
        | none => rfl
        | some v => rw [hd] at hB; cases hB
      simp only [subPairedGo, if_pos hA, hnone, ih]
    · simp only [subPairedGo, if_neg hA, ih]

theorem subPaired_of_not_search (s : List Char) (h : searchPaired s = false) :
    subPaired s = s :=
  subPairedGo_of_not_search s.length s h

/-- C9 (counterexample): on the engine output `"<think>a</think><think>"` a
paired span exists, so the code removes only paired spans; the unpaired
leftover `<think>` survives post-processing, so the returned string still
contains a reasoning-trace tag. -/
theorem stripThink_leftover_tag :
    stripThink ("<think>a</think><think>".toList) = "<think>".toList ∧
    containsCI openTag (stripThink ("<think>a</think><think>".toList)) = true := by
  constructor <;> decide

/-- C9 (amended): the post-processing removes every paired
`<think>...</think>` span when at least one exists, and otherwise removes
every lone `<think>` / `</think>` tag, trimming whitespace afterward; lone
leftover tags are not removed when a paired span is present.  It agrees with
the spec's remove-paired-then-remove-lone-then-trim description exactly on
texts where no lone tag survives paired-span removal. -/
theorem stripThink_agrees_with_spec (s : List Char)
    (h : subLone (subPaired s) = subPaired s) :
    stripThink s = specStripThink s := by
  unfold stripThink specStripThink
  by_cases hs : searchPaired s = true
  · rw [if_pos hs, h]
  · have hs' : searchPaired s = false := by
      cases hsb : searchPaired s
      · rfl
      · exact absurd hsb hs
    rw [if_neg hs, subPaired_of_not_search s hs']

/-- C9 (witness): a fully paired engine output, where the code's behaviour
and the spec's description coincide. -/
theorem stripThink_agrees_with_spec_witness :
    subLone (subPaired ("<think>reasoning</think> Answer".toList))
        = subPaired ("<think>reasoning</think> Answer".toList) ∧
    stripThink ("<think>reasoning</think> Answer".toList)
        = specStripThink ("<think>reasoning</think> Answer".toList) :=
  ⟨by decide, stripThink_agrees_with_spec ("<think>reasoning</think> Answer".toList) (by decide)⟩

/-- C3 (counterexample): an underlying I/O failure that leaves partially
written bytes surfaces `DocumentWriteError` with the partial file still
visible at the output path: `save_as_docx` calls `doc.save(output_path)`
directly (no temporary location, no atomic publish) and its `except` arm only
logs and re-raises (no delete-on-failure). -/
theorem save_failure_leaves_partial_file :
    (saveAsDocx ("x".toList) (SaveOutcome.ioError true)).1 = Except.error () ∧
    (saveAsDocx ("x".toList) (SaveOutcome.ioError true)).2 = FileState.partialWrite :=
  ⟨rfl, rfl⟩

/-- C3 (amended): on failure the error is surfaced after logging and the
output path is left exactly as the failed underlying write left it — a
partially-written file is visible precisely when the failed write left
partial bytes, and only failed writes produce it. -/
theorem save_partial_only_from_failed_write (text : List Char) (o : SaveOutcome)
    (h : (saveAsDocx text o).2 = FileState.partialWrite) :
    (saveAsDocx text o).1 = Except.error () ∧ o = SaveOutcome.ioError true := by
  cases o with
  | ok => exact absurd h (by simp [saveAsDocx])
  | ioError left =>
    cases left
    · exact absurd h (by simp [saveAsDocx])
    · exact ⟨rfl, rfl⟩

/-- C3 (witness): the amended statement at a concrete failed write. -/
theorem save_partial_only_from_failed_write_witness :
    (saveAsDocx ("y".toList) (SaveOutcome.ioError true)).2 = FileState.partialWrite ∧
    (saveAsDocx ("y".toList) (SaveOutcome.ioError true)).1 = Except.error () :=
  ⟨rfl, (save_partial_only_from_failed_write ("y".toList) (SaveOutcome.ioError true) rfl).1⟩

theorem sum_invert (img : List Nat) (h : ∀ p ∈ img, p ≤ 255) :
    ((img.map invertPix).sum : ℚ) = 255 * img.length - (img.sum : ℚ) := by
  induction img with
  | nil => simp
  | cons p t ih =>
    have hp : p ≤ 255 := h p (List.mem_cons_self p t)
    have ht : ∀ q ∈ t, q ≤ 255 := fun q hq => h q (List.mem_cons_of_mem p hq)
    simp only [List.map_cons, List.sum_cons, List.length_cons, Nat.cast_add]
    rw [ih ht]
    have hcast : ((invertPix p : Nat) : ℚ) = 255 - (p : ℚ) := by
      unfold invertPix
      rw [Nat.cast_sub hp]
      norm_num
    rw [hcast]
    push_cast
    ring

theorem pixMean_invert (img : List Nat) (hne : img ≠ [])
    (h : ∀ p ∈ img, p ≤ 255) :
    pixMean (img.map invertPix) = 255 - pixMean img := by
  have hn0 : img.length ≠ 0 := fun h0 => hne (List.length_eq_zero.mp h0)
  have hn : (img.length : ℚ) ≠ 0 := Nat.cast_ne_zero.mpr hn0
  unfold pixMean
  rw [List.length_map, sum_invert img h]
  field_simp

/-- C4: for every (nonempty, 8-bit) image produced by the preceding pipeline
stages, the image after the polarity-correction stage has exact mean
intensity at least 127; the stage inverts the image exactly when the mean is
below the midpoint and leaves it unchanged otherwise. -/
theorem polarity_mean_ge_midpoint (img : List Nat) (hne : img ≠ [])
    (hpix : ∀ p ∈ img, p ≤ 255) :
    127 ≤ pixMean (polarityCorrect img) ∧
    (pixMean img < 127 → polarityCorrect img = img.map invertPix) ∧
    (127 ≤ pixMean img → polarityCorrect img = img) := by
  unfold polarityCorrect
  by_cases hlt : pixMean img < 127
  · rw [if_pos hlt]
    refine ⟨?_, fun _ => rfl, fun hge => absurd hlt (not_lt.mpr hge)⟩
    rw [pixMean_invert img hne hpix]
    linarith
  · rw [if_neg hlt]
    exact ⟨not_lt.mp hlt, fun hc => absurd hc hlt, fun _ => rfl⟩

/-- C4 (witness): the all-dark two-pixel image is inverted and ends with mean
at least 127. -/
theorem polarity_mean_ge_midpoint_witness :
    (([0, 0] : List Nat) ≠ [] ∧ ∀ p ∈ ([0, 0] : List Nat), p ≤ 255) ∧
    127 ≤ pixMean (polarityCorrect [0, 0]) :=
  ⟨⟨by decide, by decide⟩, (polarity_mean_ge_midpoint [0, 0] (by decide) (by decide)).1⟩

end OCRFormatter

namespace AppServer

theorem afterFormat_writes_extends (tmpDir : FPath) (req : Req) (env : Env)
    (formatted : List Char) (ws : List FPath) :
    ∃ extra, (afterFormat tmpDir req env formatted ws).writes = ws ++ extra := by
  unfold afterFormat
  split
  · exact ⟨[], by simp⟩
  · split
    · split
      · split
        · exact ⟨_, rfl⟩
        · exact ⟨_, rfl⟩
      · exact ⟨_, rfl⟩
    · exact ⟨[], by simp⟩

/-- C5: the claim requires the request-scoped temporary directory to be
released exactly once on every path, the preview (JSON) path included; the
handler's preview early-return bypasses both the background cleanup and the
`except`-path cleanup, releasing the directory zero times, while the same
request without preview releases it exactly once.  This theorem evaluates the
embedded handler on both requests. -/
theorem preview_path_skips_cleanup :
    (process ["tmp".toList, "r0".toList]
        ⟨"notes.png".toList, some ("# notes".toList), some ("true".toList), "md".toList⟩
        ⟨true, [], true, [], true, true, true⟩).rmtreeCalls = 0 ∧
    (process ["tmp".toList, "r0".toList]
        ⟨"notes.png".toList, some ("# notes".toList), some ("true".toList), "md".toList⟩
        ⟨true, [], true, [], true, true, true⟩).resp
      = Resp.jsonPreview ("# notes".toList) ∧
    (process ["tmp".toList, "r0".toList]
        ⟨"notes.png".toList, some ("# notes".toList), none, "md".toList⟩
        ⟨true, [], true, [], true, true, true⟩).rmtreeCalls = 1 := by
  refine ⟨?_, ?_, ?_⟩ <;> decide

/-- C10: whenever the handler takes the OCR path (no markdown content
supplied) and `process_image` succeeds, the request's writes include the
fixed relative debug path `preprocessed.png` (`save_debug` defaults to `True`
and the call site never passes it), and that path never lies under the
request's temporary directory — the same constant path is shared by all
requests. -/
theorem debug_write_fixed_path (tmpDir : FPath) (req : Req) (env : Env)
    (hmd : req.markdownContent.getD [] = [])
    (hocr : env.ocrOk = true) (hlen : 2 ≤ tmpDir.length) :
    debugPath ∈ (process tmpDir req env).writes ∧
    ∀ sub : FPath, debugPath ≠ tmpDir ++ sub := by
  constructor
  · unfold process
    rw [if_neg (by simp [hmd]), if_pos hocr]
    by_cases hllm : env.llmOk = true
    · rw [if_pos hllm]
      obtain ⟨extra, hx⟩ :=
        afterFormat_writes_extends tmpDir req env env.llmText
          ((tmpDir ++ [req.filename]) :: processImageWrites saveDebugDefault)
      rw [hx]
      simp [processImageWrites, saveDebugDefault]
    · rw [if_neg hllm]
      simp [processImageWrites, saveDebugDefault]
  · intro sub hEq
    have hlength := congrArg List.length hEq
    simp only [debugPath, List.length_append, List.length_cons,
      List.length_nil] at hlength
    omega

/-- C10 (witness): a concrete OCR-path request with a two-component temporary
directory writes the debug artifact. -/
theorem debug_write_fixed_path_witness :
    ((none : Option (List Char)).getD [] = [] ∧ (2 : Nat) ≤ 2) ∧
    debugPath ∈ (process ["tmp".toList, "r1".toList]
      ⟨"n.png".toList, none, none, "docx".toList⟩
      ⟨true, "t".toList, true, "f".toList, true, true, true⟩).writes :=
  ⟨⟨rfl, by decide⟩,
    (debug_write_fixed_path ["tmp".toList, "r1".toList]
      ⟨"n.png".toList, none, none, "docx".toList⟩
      ⟨true, "t".toList, true, "f".toList, true, true, true⟩
      rfl rfl (by decide)).1⟩

end AppServer
